import Mathlib

/-!
Verification development for the OpenDXI repository.

The Python sources are shallowly embedded in Lean:

* numbers are modelled as exact rationals (`ℚ`);
* Python dictionaries whose fields the code reads are modelled as Lean
  structures whose fields carry `Option` when the code distinguishes a
  missing/`None` value from a number;
* `round(x, 1)` (Python's round-half-to-even) is modelled exactly on `ℚ`
  by `roundHalfEven`/`pyRound1`;
* JSON trees are modelled by the inductive `JValue`; `json.dumps` followed
  by `json.loads` is the identity on JSON trees and is modelled as such.

Definitions keep the snake_case names of the source functions.
-/

namespace OpenDXI

/-- Model of Python's banker's rounding to an integer (`round(q)`):
round to nearest, ties to the even integer. -/
def roundHalfEven (q : ℚ) : ℤ :=
  if q - ⌊q⌋ < 1/2 then ⌊q⌋
  else if 1/2 < q - ⌊q⌋ then ⌊q⌋ + 1
  else if ⌊q⌋ % 2 = 0 then ⌊q⌋ else ⌊q⌋ + 1

/-- Model of Python's `round(q, 1)`: round to the nearest tenth, ties to even. -/
def pyRound1 (q : ℚ) : ℚ := (roundHalfEven (10 * q) : ℚ) / 10

/-- Model of Python's `metrics.get(key) or default` / `metrics.get(key, 0) or d`
on a numeric field: `None` (key absent or JSON null) and `0` are falsy and
replaced by the default. -/
def orDefault (x : Option ℚ) (d : ℚ) : ℚ :=
  match x with
  | none => d
  | some v => if v = 0 then d else v

/-- The numeric fields of the developer-metrics dictionary read by
`calculate_developer_dimension_scores` and `calculate_dxi_score`
(`src/api/services/metrics_service.py`).  `none` models a key that is
absent or maps to JSON null. -/
structure Metrics where
  avg_review_time_hours : Option ℚ
  avg_cycle_time_hours : Option ℚ
  lines_added : Option ℚ
  lines_deleted : Option ℚ
  prs_opened : Option ℚ
  reviews_given : Option ℚ
  commits : Option ℚ

/-- The five dimension scores returned as a dict by the scoring functions. -/
structure DimensionScores where
  review_speed : ℚ
  cycle_time : ℚ
  pr_size : ℚ
  review_coverage : ℚ
  commit_frequency : ℚ
deriving DecidableEq

/-- Embedding of `calculate_developer_dimension_scores`
(`src/api/services/metrics_service.py`, lines 13-57). -/
def calculate_developer_dimension_scores (metrics : Metrics) : DimensionScores :=
  let review_time := orDefault metrics.avg_review_time_hours 24
  let cycle_time := orDefault metrics.avg_cycle_time_hours 48
  let lines_changed := orDefault metrics.lines_added 0 + orDefault metrics.lines_deleted 0
  let prs_opened := orDefault metrics.prs_opened 1
  let avg_pr_size := lines_changed / max prs_opened 1
  let reviews := orDefault metrics.reviews_given 0
  let commits := orDefault metrics.commits 0
  let review_score := max 0 (min 100 (100 - (review_time - 2) * (100 / 22)))
  let cycle_score := max 0 (min 100 (100 - (cycle_time - 8) * (100 / 64)))
  let size_score := max 0 (min 100 (100 - (avg_pr_size - 200) * (100 / 800)))
  let review_cov_score := min 100 (reviews * 10)
  let commit_score := min 100 (commits * 5)
  { review_speed := pyRound1 review_score
    cycle_time := pyRound1 cycle_score
    pr_size := pyRound1 size_score
    review_coverage := pyRound1 review_cov_score
    commit_frequency := pyRound1 commit_score }

/-- Embedding of `calculate_dxi_score`
(`src/api/services/metrics_service.py`, lines 60-116).  The function
recomputes the five (unrounded) dimension scores from the metrics and
returns the weighted composite rounded to one decimal. -/
def calculate_dxi_score (metrics : Metrics) : ℚ :=
  let review_time := orDefault metrics.avg_review_time_hours 24
  let cycle_time := orDefault metrics.avg_cycle_time_hours 48
  let lines_changed := orDefault metrics.lines_added 0 + orDefault metrics.lines_deleted 0
  let prs_opened := orDefault metrics.prs_opened 1
  let avg_pr_size := lines_changed / max prs_opened 1
  let reviews := orDefault metrics.reviews_given 0
  let commits := orDefault metrics.commits 0
  let review_score := max 0 (min 100 (100 - (review_time - 2) * (100 / 22)))
  let cycle_score := max 0 (min 100 (100 - (cycle_time - 8) * (100 / 64)))
  let size_score := max 0 (min 100 (100 - (avg_pr_size - 200) * (100 / 800)))
  let review_cov_score := min 100 (reviews * 10)
  let commit_score := min 100 (commits * 5)
  let composite :=
    0.25 * review_score + 0.25 * cycle_score + 0.20 * size_score
      + 0.15 * review_cov_score + 0.15 * commit_score
  pyRound1 composite

/-- The numeric fields of one developer dictionary as read by the
team-level `calculate_dimension_scores`.  `none` models an absent key;
for the two latency fields it also models JSON null (the code treats
both identically there). -/
structure TeamDev where
  avg_review_time_hours : Option ℚ
  avg_cycle_time_hours : Option ℚ
  lines_added : Option ℚ
  lines_deleted : Option ℚ
  prs_opened : Option ℚ
  reviews_given : Option ℚ
  commits : Option ℚ

/-- Embedding of the nested helper `safe_avg`: average of the non-`None`
values, `0` when there are none. -/
def safe_avg (values : List (Option ℚ)) : ℚ :=
  let valid := values.filterMap id
  if valid.isEmpty then 0 else valid.sum / valid.length

/-- Embedding of the team-level `calculate_dimension_scores`
(`src/api/services/metrics_service.py`, lines 119-172). -/
def calculate_dimension_scores (developers : List TeamDev) : DimensionScores :=
  if developers.isEmpty then
    { review_speed := 50, cycle_time := 50, pr_size := 50
      review_coverage := 50, commit_frequency := 50 }
  else
    let review_times := developers.map (·.avg_review_time_hours)
    let cycle_times := developers.map (·.avg_cycle_time_hours)
    let pr_sizes := developers.map (fun d =>
      (some (((d.lines_added.getD 0) + (d.lines_deleted.getD 0)) / max (d.prs_opened.getD 1) 1) : Option ℚ))
    let reviews := developers.map (fun d => (some (d.reviews_given.getD 0) : Option ℚ))
    let commits := developers.map (fun d => (some (d.commits.getD 0) : Option ℚ))
    let avg_review_time := safe_avg review_times
    let review_score :=
      if avg_review_time = 0 then 50
      else max 0 (min 100 (100 - (avg_review_time - 2) * (100 / 22)))
    let avg_cycle_time := safe_avg cycle_times
    let cycle_score :=
      if avg_cycle_time = 0 then 50
      else max 0 (min 100 (100 - (avg_cycle_time - 8) * (100 / 64)))
    let avg_pr_size := safe_avg pr_sizes
    let size_score := max 0 (min 100 (100 - (avg_pr_size - 200) * (100 / 800)))
    let avg_reviews := safe_avg reviews
    let review_cov_score := min 100 (avg_reviews * 10)
    let avg_commits := safe_avg commits
    let commit_score := min 100 (avg_commits * 5)
    { review_speed := pyRound1 review_score
      cycle_time := pyRound1 cycle_score
      pr_size := pyRound1 size_score
      review_coverage := pyRound1 review_cov_score
      commit_frequency := pyRound1 commit_score }

example :
    calculate_developer_dimension_scores
      ⟨some 2, some 8, some 100, some 100, some 1, some 10, some 20⟩ =
    ⟨100, 100, 100, 100, 100⟩ := by
  norm_num [calculate_developer_dimension_scores, orDefault, pyRound1, roundHalfEven]

example : calculate_dxi_score ⟨some 2, some 8, some 100, some 100, some 1, some 10, some 20⟩ = 100 := by
  norm_num [calculate_dxi_score, orDefault, pyRound1, roundHalfEven]

/-! ### Facts about the rounding model -/

lemma roundHalfEven_ge_floor (q : ℚ) : ⌊q⌋ ≤ roundHalfEven q := by
  rw [roundHalfEven]
  split_ifs <;> omega

lemma roundHalfEven_le_ceil (q : ℚ) : roundHalfEven q ≤ ⌈q⌉ := by
  have hfc : ⌊q⌋ ≤ ⌈q⌉ := Int.floor_le_ceil q
  have hfl : (⌊q⌋ : ℚ) ≤ q := Int.floor_le q
  rw [roundHalfEven]
  split_ifs with h1 h2 h3
  · exact hfc
  · have : (⌊q⌋ : ℚ) < q := by linarith
    have : ⌊q⌋ < ⌈q⌉ := by
      rwa [Int.lt_ceil]
    omega
  · exact hfc
  · have h2' : q - ⌊q⌋ = 1/2 := le_antisymm (not_lt.mp h2) (not_lt.mp h1)
    have : (⌊q⌋ : ℚ) < q := by linarith
    have : ⌊q⌋ < ⌈q⌉ := by rwa [Int.lt_ceil]
    omega

lemma abs_roundHalfEven_sub_le (q : ℚ) : |(roundHalfEven q : ℚ) - q| ≤ 1/2 := by
  have hfl : (⌊q⌋ : ℚ) ≤ q := Int.floor_le q
  have hfu : q < ⌊q⌋ + 1 := Int.lt_floor_add_one q
  rw [roundHalfEven]
  split_ifs with h1 h2 h3 <;> rw [abs_le] <;> push_cast <;> constructor <;> linarith

lemma pyRound1_nonneg {q : ℚ} (h : 0 ≤ q) : 0 ≤ pyRound1 q := by
  have h1 : (0 : ℤ) ≤ ⌊10 * q⌋ := Int.floor_nonneg.mpr (by linarith)
  have h2 : (0 : ℤ) ≤ roundHalfEven (10 * q) := le_trans h1 (roundHalfEven_ge_floor _)
  have h3 : (0 : ℚ) ≤ (roundHalfEven (10 * q) : ℚ) := by exact_mod_cast h2
  rw [pyRound1]
  positivity

lemma pyRound1_le_hundred {q : ℚ} (h : q ≤ 100) : pyRound1 q ≤ 100 := by
  have h1 : ⌈10 * q⌉ ≤ 1000 := Int.ceil_le.mpr (by push_cast; linarith)
  have h2 : roundHalfEven (10 * q) ≤ 1000 := le_trans (roundHalfEven_le_ceil _) h1
  have h3 : (roundHalfEven (10 * q) : ℚ) ≤ 1000 := by exact_mod_cast h2
  rw [pyRound1]
  linarith

lemma abs_pyRound1_sub_le (q : ℚ) : |pyRound1 q - q| ≤ 1/20 := by
  have h := abs_roundHalfEven_sub_le (10 * q)
  rw [pyRound1]
  have : (roundHalfEven (10 * q) : ℚ) / 10 - q = ((roundHalfEven (10 * q) : ℚ) - 10 * q) / 10 := by
    ring
  rw [this, abs_div]
  rw [show |(10 : ℚ)| = 10 by norm_num]
  linarith

/-- Each dimension-score clamp `max 0 (min 100 x)` lies in `[0, 100]`, and so
does its rounding to one decimal. -/
lemma clamp_round_mem (x : ℚ) :
    0 ≤ pyRound1 (max 0 (min 100 x)) ∧ pyRound1 (max 0 (min 100 x)) ≤ 100 := by
  have h0 : (0 : ℚ) ≤ max 0 (min 100 x) := le_max_left _ _
  have h1 : max 0 (min 100 x) ≤ 100 :=
    max_le (by norm_num) (min_le_left _ _)
  exact ⟨pyRound1_nonneg h0, pyRound1_le_hundred h1⟩

/-- The upper-clamped linear scale `min 100 y` lies in `[0, 100]` when `y ≥ 0`,
and so does its rounding to one decimal. -/
lemma upper_clamp_round_mem {y : ℚ} (hy : 0 ≤ y) :
    0 ≤ pyRound1 (min 100 y) ∧ pyRound1 (min 100 y) ≤ 100 := by
  have h0 : (0 : ℚ) ≤ min 100 y := le_min (by norm_num) hy
  exact ⟨pyRound1_nonneg h0, pyRound1_le_hundred (min_le_left _ _)⟩

/-! ### Score-range facts (claim C1) -/

/-- Unfolding lemma for `calculate_developer_dimension_scores`. -/
lemma calculate_developer_dimension_scores_def (m : Metrics) :
    calculate_developer_dimension_scores m =
      { review_speed :=
          pyRound1 (max 0 (min 100 (100 - (orDefault m.avg_review_time_hours 24 - 2) * (100 / 22))))
        cycle_time :=
          pyRound1 (max 0 (min 100 (100 - (orDefault m.avg_cycle_time_hours 48 - 8) * (100 / 64))))
        pr_size :=
          pyRound1 (max 0 (min 100 (100 -
            ((orDefault m.lines_added 0 + orDefault m.lines_deleted 0) /
                max (orDefault m.prs_opened 1) 1 - 200) * (100 / 800))))
        review_coverage := pyRound1 (min 100 (orDefault m.reviews_given 0 * 10))
        commit_frequency := pyRound1 (min 100 (orDefault m.commits 0 * 5)) } := rfl

/-- All five dimension-score fields lie in `[0, 100]`. -/
def scores_in_range (D : DimensionScores) : Prop :=
  (0 ≤ D.review_speed ∧ D.review_speed ≤ 100) ∧
  (0 ≤ D.cycle_time ∧ D.cycle_time ≤ 100) ∧
  (0 ≤ D.pr_size ∧ D.pr_size ≤ 100) ∧
  (0 ≤ D.review_coverage ∧ D.review_coverage ≤ 100) ∧
  (0 ≤ D.commit_frequency ∧ D.commit_frequency ≤ 100)

lemma orDefault_nonneg {x : Option ℚ} {d : ℚ} (hd : 0 ≤ d)
    (hx : ∀ v, x = some v → 0 ≤ v) : 0 ≤ orDefault x d := by
  cases x with
  | none => simpa [orDefault] using hd
  | some v =>
    simp only [orDefault]
    split_ifs with h
    · exact hd
    · exact hx v rfl

lemma safe_avg_nonneg {values : List (Option ℚ)}
    (h : ∀ x ∈ values, ∀ v, x = some v → 0 ≤ v) : 0 ≤ safe_avg values := by
  simp only [safe_avg]
  split_ifs with h1
  · exact le_rfl
  · apply div_nonneg
    · apply List.sum_nonneg
      intro v hv
      rcases List.mem_filterMap.mp hv with ⟨x, hx, hxv⟩
      exact h x hx v hxv
    · positivity

/-- Unfolding lemma for the team-level `calculate_dimension_scores`. -/
lemma calculate_dimension_scores_def (devs : List TeamDev) :
    calculate_dimension_scores devs =
      if devs.isEmpty then
        { review_speed := 50, cycle_time := 50, pr_size := 50
          review_coverage := 50, commit_frequency := 50 }
      else
        { review_speed :=
            pyRound1 (if safe_avg (devs.map (·.avg_review_time_hours)) = 0 then 50
              else max 0 (min 100 (100 -
                (safe_avg (devs.map (·.avg_review_time_hours)) - 2) * (100 / 22))))
          cycle_time :=
            pyRound1 (if safe_avg (devs.map (·.avg_cycle_time_hours)) = 0 then 50
              else max 0 (min 100 (100 -
                (safe_avg (devs.map (·.avg_cycle_time_hours)) - 8) * (100 / 64))))
          pr_size :=
            pyRound1 (max 0 (min 100 (100 -
              (safe_avg (devs.map (fun d =>
                  (some (((d.lines_added.getD 0) + (d.lines_deleted.getD 0)) /
                    max (d.prs_opened.getD 1) 1) : Option ℚ))) - 200) * (100 / 800))))
          review_coverage :=
            pyRound1 (min 100
              (safe_avg (devs.map (fun d => (some (d.reviews_given.getD 0) : Option ℚ))) * 10))
          commit_frequency :=
            pyRound1 (min 100
              (safe_avg (devs.map (fun d => (some (d.commits.getD 0) : Option ℚ))) * 5)) } := rfl

/-- The score of a metric that falls back to the neutral 50 when its average
is falsy, and is otherwise clamped, lies in `[0, 100]` after rounding. -/
lemma ite_clamp_round_mem (c : Prop) [Decidable c] (x : ℚ) :
    0 ≤ pyRound1 (if c then 50 else max 0 (min 100 x)) ∧
    pyRound1 (if c then 50 else max 0 (min 100 x)) ≤ 100 := by
  split_ifs with h
  · exact ⟨pyRound1_nonneg (by norm_num), pyRound1_le_hundred (by norm_num)⟩
  · exact clamp_round_mem x

/-- C1, counterexample: with `reviews_given = -1` (and every other key absent)
the `review_coverage` dimension score returned by
`calculate_developer_dimension_scores` is `-10`, outside `[0, 100]`;
the team-level `calculate_dimension_scores` on a single such developer
returns the same out-of-range value.  This refutes the claim that every
dimension score lies in `[0, 100]` for arbitrary (possibly negative) raw
inputs. -/
theorem review_coverage_unclamped_cex :
    (calculate_developer_dimension_scores
        ⟨none, none, none, none, none, some (-1), none⟩).review_coverage = -10 ∧
    ¬ (0 ≤ (calculate_developer_dimension_scores
        ⟨none, none, none, none, none, some (-1), none⟩).review_coverage) ∧
    (calculate_dimension_scores
        [⟨none, none, none, none, none, some (-1), none⟩]).review_coverage = -10 := by
  have hteam : safe_avg [(some (-1) : Option ℚ)] = -1 := by simp [safe_avg]
  refine ⟨?_, ?_, ?_⟩
  · norm_num [calculate_developer_dimension_scores_def, orDefault, pyRound1, roundHalfEven]
  · norm_num [calculate_developer_dimension_scores_def, orDefault, pyRound1, roundHalfEven]
  · rw [calculate_dimension_scores_def]
    norm_num [hteam, pyRound1, roundHalfEven]

/-- C1, amended: every dimension score produced by
`calculate_developer_dimension_scores` lies in `[0, 100]` whenever the raw
`reviews_given` and `commits` inputs are nonnegative (the review-time,
cycle-time and PR-size inputs may still be arbitrarily large or negative);
likewise for the team-level `calculate_dimension_scores`.  Without the
nonnegativity hypotheses the property fails, because the
`review_coverage` and `commit_frequency` scales are clamped only from
above (`min(100, x)` with no `max(0, ...)`). -/
theorem dimension_scores_within_range (m : Metrics) (devs : List TeamDev)
    (hr : ∀ v, m.reviews_given = some v → 0 ≤ v)
    (hc : ∀ v, m.commits = some v → 0 ≤ v)
    (hdr : ∀ d ∈ devs, 0 ≤ d.reviews_given.getD 0)
    (hdc : ∀ d ∈ devs, 0 ≤ d.commits.getD 0) :
    scores_in_range (calculate_developer_dimension_scores m) ∧
    scores_in_range (calculate_dimension_scores devs) := by
  have havg_r : 0 ≤ safe_avg (devs.map (fun d => (some (d.reviews_given.getD 0) : Option ℚ))) := by
    apply safe_avg_nonneg
    intro x hx v hxv
    rcases List.mem_map.mp hx with ⟨d, hd, hdx⟩
    rw [← hdx] at hxv
    rcases hxv with ⟨⟩
    exact hdr d hd
  have havg_c : 0 ≤ safe_avg (devs.map (fun d => (some (d.commits.getD 0) : Option ℚ))) := by
    apply safe_avg_nonneg
    intro x hx v hxv
    rcases List.mem_map.mp hx with ⟨d, hd, hdx⟩
    rw [← hdx] at hxv
    rcases hxv with ⟨⟩
    exact hdc d hd
  constructor
  · rw [calculate_developer_dimension_scores_def]
    have h1 : 0 ≤ orDefault m.reviews_given 0 := orDefault_nonneg le_rfl hr
    have h2 : 0 ≤ orDefault m.commits 0 := orDefault_nonneg le_rfl hc
    exact ⟨clamp_round_mem _, clamp_round_mem _, clamp_round_mem _,
      upper_clamp_round_mem (by linarith), upper_clamp_round_mem (by linarith)⟩
  · rw [calculate_dimension_scores_def]
    by_cases hempty : devs.isEmpty
    · rw [if_pos hempty]
      exact ⟨by norm_num, by norm_num, by norm_num, by norm_num, by norm_num⟩
    · rw [if_neg hempty]
      exact ⟨ite_clamp_round_mem _ _, ite_clamp_round_mem _ _, clamp_round_mem _,
        upper_clamp_round_mem (by linarith), upper_clamp_round_mem (by linarith)⟩

/-- Witness for `dimension_scores_within_range` at a concrete input. -/
theorem dimension_scores_within_range_witness :
    (∀ v : ℚ, (some (3 : ℚ)) = some v → 0 ≤ v) ∧
    (∀ v : ℚ, (none : Option ℚ) = some v → 0 ≤ v) ∧
    scores_in_range (calculate_developer_dimension_scores
      ⟨some 30, none, some 900, some 100, some 2, some 3, none⟩) ∧
    scores_in_range (calculate_dimension_scores
      [⟨some 30, none, some 900, some 100, some 2, some 3, none⟩]) := by
  have h1 : ∀ v : ℚ, (some (3 : ℚ)) = some v → 0 ≤ v := by
    intro v h
    cases h
    norm_num
  have h2 : ∀ v : ℚ, (none : Option ℚ) = some v → 0 ≤ v := fun v h => by cases h
  have hmain := dimension_scores_within_range
    ⟨some 30, none, some 900, some 100, some 2, some 3, none⟩
    [⟨some 30, none, some 900, some 100, some 2, some 3, none⟩]
    h1 h2
    (by
      intro d hd
      rcases List.mem_singleton.mp hd with rfl
      norm_num)
    (by
      intro d hd
      rcases List.mem_singleton.mp hd with rfl
      norm_num)
  exact ⟨h1, h2, hmain.1, hmain.2⟩

/-! ### Zero-latency defaulting (claim C10) -/

/-- Unfolding lemma for `calculate_dxi_score`. -/
lemma calculate_dxi_score_def (m : Metrics) :
    calculate_dxi_score m =
      pyRound1 (
        0.25 * max 0 (min 100 (100 - (orDefault m.avg_review_time_hours 24 - 2) * (100 / 22)))
        + 0.25 * max 0 (min 100 (100 - (orDefault m.avg_cycle_time_hours 48 - 8) * (100 / 64)))
        + 0.20 * max 0 (min 100 (100 -
            ((orDefault m.lines_added 0 + orDefault m.lines_deleted 0) /
              max (orDefault m.prs_opened 1) 1 - 200) * (100 / 800)))
        + 0.15 * min 100 (orDefault m.reviews_given 0 * 10)
        + 0.15 * min 100 (orDefault m.commits 0 * 5)) := rfl

set_option maxHeartbeats 1000000 in
/-- C10: in both `calculate_developer_dimension_scores` and
`calculate_dxi_score`, a present-but-zero `avg_review_time_hours` or
`avg_cycle_time_hours` is treated exactly like an absent/null value (the
Python `or` default makes `0` falsy), so the defaults 24 and 48 hours are
substituted.  Concretely, a zero review latency scores 0 (the 24-hour
default), not the perfect 100, and a zero cycle latency scores 37.5 (the
48-hour default). -/
theorem zero_latency_treated_as_missing (m : Metrics) :
    calculate_developer_dimension_scores
        { m with avg_review_time_hours := some 0 } =
      calculate_developer_dimension_scores
        { m with avg_review_time_hours := none } ∧
    calculate_developer_dimension_scores
        { m with avg_cycle_time_hours := some 0 } =
      calculate_developer_dimension_scores
        { m with avg_cycle_time_hours := none } ∧
    calculate_dxi_score { m with avg_review_time_hours := some 0 } =
      calculate_dxi_score { m with avg_review_time_hours := none } ∧
    calculate_dxi_score { m with avg_cycle_time_hours := some 0 } =
      calculate_dxi_score { m with avg_cycle_time_hours := none } ∧
    (calculate_developer_dimension_scores
        ⟨some 0, none, none, none, none, none, none⟩).review_speed = 0 ∧
    (calculate_developer_dimension_scores
        ⟨none, some 0, none, none, none, none, none⟩).cycle_time = 75 / 2 := by
  refine ⟨?_, ?_, ?_, ?_, ?_, ?_⟩
  · simp [calculate_developer_dimension_scores_def, orDefault]
  · simp [calculate_developer_dimension_scores_def, orDefault]
  · simp [calculate_dxi_score_def, orDefault]
  · simp [calculate_dxi_score_def, orDefault]
  · norm_num [calculate_developer_dimension_scores_def, orDefault, pyRound1, roundHalfEven]
  · norm_num [calculate_developer_dimension_scores_def, orDefault, pyRound1, roundHalfEven]

/-! ### The weighted composite (claim C9) -/

/-- Rounding the five dimension scores to one decimal and re-forming the
weighted combination moves the composite by at most `1/20`, so after the
final rounding the two one-decimal values differ by at most `1/10`. -/
lemma pyRound1_weighted_close (a b c d e : ℚ) :
    |pyRound1 (0.25 * pyRound1 a + 0.25 * pyRound1 b + 0.20 * pyRound1 c
        + 0.15 * pyRound1 d + 0.15 * pyRound1 e)
      - pyRound1 (0.25 * a + 0.25 * b + 0.20 * c + 0.15 * d + 0.15 * e)| ≤ 1/10 := by
  set A := 0.25 * pyRound1 a + 0.25 * pyRound1 b + 0.20 * pyRound1 c
    + 0.15 * pyRound1 d + 0.15 * pyRound1 e with hA_def
  set B := 0.25 * a + 0.25 * b + 0.20 * c + 0.15 * d + 0.15 * e with hB_def
  have ha := abs_le.mp (abs_pyRound1_sub_le a)
  have hb := abs_le.mp (abs_pyRound1_sub_le b)
  have hc := abs_le.mp (abs_pyRound1_sub_le c)
  have hd := abs_le.mp (abs_pyRound1_sub_le d)
  have he := abs_le.mp (abs_pyRound1_sub_le e)
  have hAB : |A - B| ≤ 1/20 := by
    rw [abs_le]
    constructor <;> (rw [hA_def, hB_def]; nlinarith [ha.1, ha.2, hb.1, hb.2, hc.1, hc.2,
      hd.1, hd.2, he.1, he.2])
  have hA := abs_le.mp (abs_pyRound1_sub_le A)
  have hB := abs_le.mp (abs_pyRound1_sub_le B)
  have hAB' := abs_le.mp hAB
  have hdiff : pyRound1 A - pyRound1 B =
      ((roundHalfEven (10 * A) - roundHalfEven (10 * B) : ℤ) : ℚ) / 10 := by
    rw [pyRound1, pyRound1]
    push_cast
    ring
  have hsmall : |((roundHalfEven (10 * A) - roundHalfEven (10 * B) : ℤ) : ℚ)| ≤ 3/2 := by
    have h1 : |pyRound1 A - pyRound1 B| ≤ 3/20 := by
      rw [abs_le]
      constructor <;> linarith [hA.1, hA.2, hB.1, hB.2, hAB'.1, hAB'.2]
    rw [hdiff, abs_div] at h1
    rw [show |(10:ℚ)| = 10 by norm_num] at h1
    linarith
  have hint : |roundHalfEven (10 * A) - roundHalfEven (10 * B)| ≤ 1 := by
    have h2 : ((|roundHalfEven (10 * A) - roundHalfEven (10 * B)| : ℤ) : ℚ) ≤ 3/2 := by
      rw [Int.cast_abs]
      exact hsmall
    have h3 : ((|roundHalfEven (10 * A) - roundHalfEven (10 * B)| : ℤ) : ℚ) < 2 := by
      linarith
    have h4 : (|roundHalfEven (10 * A) - roundHalfEven (10 * B)| : ℤ) < 2 := by
      exact_mod_cast h3
    omega
  rw [hdiff, abs_div, show |(10:ℚ)| = 10 by norm_num]
  have h5 : |((roundHalfEven (10 * A) - roundHalfEven (10 * B) : ℤ) : ℚ)| ≤ 1 := by
    rw [← Int.cast_abs]
    exact_mod_cast hint
  linarith

/-- C9, counterexample: for the metrics input with
`avg_review_time_hours = 23.9428`, `avg_cycle_time_hours = 80`,
`lines_added = 23528`, `prs_opened = 25` (everything else absent), the
unrounded dimension scores are `(0.26, 0, 7.36, 0, 0)`.  The stored
composite is `round(1.537, 1) = 1.5`, but recomputing the weighted
combination from the individually rounded dimension scores
`(0.3, 0, 7.4, 0, 0)` gives `round(1.555, 1) = 1.6`.  So recomputing from
the rounded dimension scores does not reproduce `calculate_dxi_score`'s
result to one decimal. -/
theorem dxi_recompute_one_decimal_cex :
    calculate_dxi_score ⟨some 23.9428, some 80, some 23528, none, some 25, none, none⟩ = 1.5 ∧
    pyRound1 (0.25 *
        (calculate_developer_dimension_scores
          ⟨some 23.9428, some 80, some 23528, none, some 25, none, none⟩).review_speed
      + 0.25 * (calculate_developer_dimension_scores
          ⟨some 23.9428, some 80, some 23528, none, some 25, none, none⟩).cycle_time
      + 0.20 * (calculate_developer_dimension_scores
          ⟨some 23.9428, some 80, some 23528, none, some 25, none, none⟩).pr_size
      + 0.15 * (calculate_developer_dimension_scores
          ⟨some 23.9428, some 80, some 23528, none, some 25, none, none⟩).review_coverage
      + 0.15 * (calculate_developer_dimension_scores
          ⟨some 23.9428, some 80, some 23528, none, some 25, none, none⟩).commit_frequency)
      = 1.6 := by
  constructor
  · norm_num [calculate_dxi_score_def, orDefault, pyRound1, roundHalfEven]
  · norm_num [calculate_developer_dimension_scores_def, orDefault, pyRound1, roundHalfEven]

/-- C9, amended: `calculate_dxi_score` is the fixed affine combination of
the five (unrounded) dimension scores with weights
`0.25, 0.25, 0.20, 0.15, 0.15` summing to `1`, rounded to one decimal;
recomputing the weighted combination from the individually rounded
dimension scores of `calculate_developer_dimension_scores` reproduces the
stored composite to within `0.1` (one unit in the last decimal place; exact
agreement can fail by one ulp, as the counterexample shows). -/
theorem dxi_weighted_recompute_close (m : Metrics) :
    ((0.25 : ℚ) + 0.25 + 0.20 + 0.15 + 0.15 = 1) ∧
    |pyRound1 (0.25 * (calculate_developer_dimension_scores m).review_speed
        + 0.25 * (calculate_developer_dimension_scores m).cycle_time
        + 0.20 * (calculate_developer_dimension_scores m).pr_size
        + 0.15 * (calculate_developer_dimension_scores m).review_coverage
        + 0.15 * (calculate_developer_dimension_scores m).commit_frequency)
      - calculate_dxi_score m| ≤ 1/10 := by
  constructor
  · norm_num
  · rw [calculate_developer_dimension_scores_def, calculate_dxi_score_def]
    exact pyRound1_weighted_close _ _ _ _ _

/-! ### JSON values

`JValue` models the JSON trees that `json.dumps`/`json.loads` serialize and
parse.  Serializing a JSON tree and parsing it back is the identity, so the
`data_json` column of the store is modelled as holding the tree itself. -/

inductive JValue where
  | null
  | bool (b : Bool)
  | num (q : ℚ)
  | str (s : String)
  | arr (elems : List JValue)
  | obj (fields : List (String × JValue))

/-- Python truthiness of a JSON value: `None`, `False`, `0`, `""`, `[]` and
`{}` are falsy, everything else truthy. -/
def JValue.isTruthy : JValue → Bool
  | .null => false
  | .bool b => b
  | .num q => q != 0
  | .str s => s != ""
  | .arr xs => !xs.isEmpty
  | .obj fs => !fs.isEmpty

/-! ### The sprint store (`src/deprecated_api/services/sprint_store.py`)

The `sprints` table keyed by its `sprint_key` primary key is modelled as an
association list.  The store-level failure handling of the Python code
(`sqlite3.Error` swallowed on every operation, `TypeError` swallowed on
serializing) concerns unserializable payloads and storage-engine faults
that are outside the model: payloads here are JSON trees, which always
serialize. -/

/-- One row of the `sprints` table. -/
structure SprintRow where
  sprint_start : String
  sprint_end : String
  data_json : JValue
  created_at : ℚ
  updated_at : ℚ

/-- The `sprints` table: one row per `sprint_key` (primary key). -/
abbrev Store := List (String × SprintRow)

/-- Embedding of `get_sprint_key` (`sprint_store.py`, lines 81-83). -/
def get_sprint_key (sprint_start sprint_end : String) : String :=
  "sprint_" ++ sprint_start ++ "_" ++ sprint_end

/-- Embedding of `get_sprint` (`sprint_store.py`, lines 86-101):
look the key up and parse the stored payload. -/
def get_sprint (st : Store) (sprint_key : String) : Option JValue :=
  (st.lookup sprint_key).map SprintRow.data_json

/-- Embedding of `save_sprint` (`sprint_store.py`, lines 104-131):
`INSERT OR REPLACE` with `created_at` taken from the existing row when the
key is already present (`COALESCE` subquery), else the current time `now`;
`updated_at` is always `now`; the sprint dates are parsed from the key by
splitting on underscores. -/
def save_sprint (st : Store) (sprint_key : String) (data : JValue) (now : ℚ) : Store :=
  let parts := sprint_key.splitOn "_"
  let sprint_start := parts.getD 1 ""
  let sprint_end := parts.getD 2 ""
  let created_at :=
    match st.lookup sprint_key with
    | some row => row.created_at
    | none => now
  (sprint_key,
    { sprint_start := sprint_start, sprint_end := sprint_end, data_json := data,
      created_at := created_at, updated_at := now }) ::
    st.filter (fun p => p.1 ≠ sprint_key)

/-- Result of the cache-or-fetch coordinator: the payload returned to the
caller, the store state afterwards, and whether the orchestrator
(`fetch_all_metrics`) was invoked. -/
structure MetricsFetchOutcome where
  payload : JValue
  store : Store
  fetched : Bool

/-- Embedding of `get_metrics_for_sprint`
(`src/api/services/github_service.py`, lines 693-715).  The orchestrator
`fetch_all_metrics` is passed as a function argument; `if stored:` is
Python truthiness of the stored payload. -/
def get_metrics_for_sprint (fetch_all_metrics : String → String → JValue)
    (st : Store) (start_date end_date : String) (force_refresh : Bool) (now : ℚ) :
    MetricsFetchOutcome :=
  let sprint_key := get_sprint_key start_date end_date
  let cached : Option JValue :=
    if force_refresh then none
    else
      match get_sprint st sprint_key with
      | some stored => if stored.isTruthy then some stored else none
      | none => none
  match cached with
  | some stored => ⟨stored, st, false⟩
  | none =>
    let metrics := fetch_all_metrics start_date end_date
    ⟨metrics, save_sprint st sprint_key metrics now, true⟩

/-! ### Store round-trip and upsert facts (claims C2, C3) -/

/-- C2: saving a payload under a key and reading the same key back returns
a payload deep-equal to what was saved, for every prior store state, key,
JSON payload and timestamp. -/
theorem save_then_get_roundtrip (st : Store) (sprint_key : String)
    (data : JValue) (now : ℚ) :
    get_sprint (save_sprint st sprint_key data now) sprint_key = some data := by
  simp [get_sprint, save_sprint, List.lookup]

/-- C3: after a first save at time `t1` under a key that the store did not
yet hold, and a second save of a different payload at time `t2` under the
same key, the stored row keeps `created_at = t1` (first-write-wins) while
`updated_at = t2`; the payload and the dates parsed from the key come from
the second save.  In particular when `t1 < t2` the row's `updated_at` has
strictly advanced past its `created_at`. -/
theorem resave_preserves_created_at (st : Store) (k : String)
    (d1 d2 : JValue) (t1 t2 : ℚ) (hfresh : st.lookup k = none) :
    (save_sprint (save_sprint st k d1 t1) k d2 t2).lookup k =
      some { sprint_start := (k.splitOn "_").getD 1 ""
             sprint_end := (k.splitOn "_").getD 2 ""
             data_json := d2
             created_at := t1
             updated_at := t2 } ∧
    (t1 < t2 → ∀ row, (save_sprint (save_sprint st k d1 t1) k d2 t2).lookup k = some row →
      row.created_at < row.updated_at) := by
  have h1 : (save_sprint st k d1 t1).lookup k =
      some { sprint_start := (k.splitOn "_").getD 1 ""
             sprint_end := (k.splitOn "_").getD 2 ""
             data_json := d1
             created_at := t1
             updated_at := t1 } := by
    rw [save_sprint, hfresh]
    simp [List.lookup]
  have h2 : (save_sprint (save_sprint st k d1 t1) k d2 t2).lookup k =
      some { sprint_start := (k.splitOn "_").getD 1 ""
             sprint_end := (k.splitOn "_").getD 2 ""
             data_json := d2
             created_at := t1
             updated_at := t2 } := by
    rw [save_sprint, h1]
    simp [List.lookup]
  refine ⟨h2, fun hlt row hrow => ?_⟩
  rw [h2] at hrow
  cases hrow
  simpa using hlt

/-- Witness for `resave_preserves_created_at` on a concrete store. -/
theorem resave_preserves_created_at_witness :
    ([] : Store).lookup "sprint_2026-01-07_2026-01-20" = none ∧
    (save_sprint (save_sprint [] "sprint_2026-01-07_2026-01-20" JValue.null 1)
        "sprint_2026-01-07_2026-01-20" (JValue.num 7) 2).lookup
        "sprint_2026-01-07_2026-01-20" =
      some { sprint_start := ("sprint_2026-01-07_2026-01-20".splitOn "_").getD 1 ""
             sprint_end := ("sprint_2026-01-07_2026-01-20".splitOn "_").getD 2 ""
             data_json := JValue.num 7
             created_at := 1
             updated_at := 2 } := by
  have h := resave_preserves_created_at [] "sprint_2026-01-07_2026-01-20"
    JValue.null (JValue.num 7) 1 2 rfl
  exact ⟨rfl, h.1⟩

/-! ### The cache-or-fetch coordinator (claim C4) -/

/-- C4, counterexample: the store holds an entry for the window's key whose
payload is the empty object `{}`, and `force_refresh` is false — yet
`get_metrics_for_sprint` invokes the orchestrator anyway and returns the
fresh result instead of the stored payload, because `if stored:` treats
the falsy `{}` as a miss.  This refutes the claim that any stored entry is
returned without fetching. -/
theorem falsy_cache_entry_refetched_cex :
    get_sprint (save_sprint [] (get_sprint_key "2026-01-07" "2026-01-20") (JValue.obj []) 0)
        (get_sprint_key "2026-01-07" "2026-01-20") = some (JValue.obj []) ∧
    (get_metrics_for_sprint (fun _ _ => JValue.str "fresh")
        (save_sprint [] (get_sprint_key "2026-01-07" "2026-01-20") (JValue.obj []) 0)
        "2026-01-07" "2026-01-20" false 1).fetched = true ∧
    (get_metrics_for_sprint (fun _ _ => JValue.str "fresh")
        (save_sprint [] (get_sprint_key "2026-01-07" "2026-01-20") (JValue.obj []) 0)
        "2026-01-07" "2026-01-20" false 1).payload = JValue.str "fresh" := by
  refine ⟨?_, ?_, ?_⟩ <;> rfl

/-- C4, amended: with `force_refresh = false`, a stored *truthy* (non-empty)
payload for the window's key is returned unmodified without invoking
`fetch_all_metrics` and without touching the store; when the store has no
entry for the key, or the stored payload is falsy (e.g. `{}`), or
`force_refresh = true`, the orchestrator is invoked, its result is saved
under the window's key, and that result is returned. -/
theorem get_metrics_cache_policy (fetch : String → String → JValue)
    (st : Store) (s e : String) (now : ℚ) :
    (∀ v, get_sprint st (get_sprint_key s e) = some v → v.isTruthy = true →
      get_metrics_for_sprint fetch st s e false now = ⟨v, st, false⟩) ∧
    (get_sprint st (get_sprint_key s e) = none →
      get_metrics_for_sprint fetch st s e false now =
        ⟨fetch s e, save_sprint st (get_sprint_key s e) (fetch s e) now, true⟩) ∧
    (∀ v, get_sprint st (get_sprint_key s e) = some v → v.isTruthy = false →
      get_metrics_for_sprint fetch st s e false now =
        ⟨fetch s e, save_sprint st (get_sprint_key s e) (fetch s e) now, true⟩) ∧
    (get_metrics_for_sprint fetch st s e true now =
      ⟨fetch s e, save_sprint st (get_sprint_key s e) (fetch s e) now, true⟩) := by
  refine ⟨?_, ?_, ?_, ?_⟩
  · intro v hv htruthy
    rw [get_metrics_for_sprint, hv]
    simp [htruthy]
  · intro hnone
    rw [get_metrics_for_sprint, hnone]
    rfl
  · intro v hv hfalsy
    rw [get_metrics_for_sprint, hv]
    simp [hfalsy]
  · rw [get_metrics_for_sprint]
    simp

/-- Witness for `get_metrics_cache_policy`: a store holding the truthy
payload `5` under the key serves it without fetching, and an empty store
fetches and saves. -/
theorem get_metrics_cache_policy_witness :
    get_sprint (save_sprint [] (get_sprint_key "2026-01-07" "2026-01-20") (JValue.num 5) 0)
        (get_sprint_key "2026-01-07" "2026-01-20") = some (JValue.num 5) ∧
    (JValue.num 5).isTruthy = true ∧
    get_metrics_for_sprint (fun _ _ => JValue.str "fresh")
        (save_sprint [] (get_sprint_key "2026-01-07" "2026-01-20") (JValue.num 5) 0)
        "2026-01-07" "2026-01-20" false 1 =
      ⟨JValue.num 5,
        save_sprint [] (get_sprint_key "2026-01-07" "2026-01-20") (JValue.num 5) 0, false⟩ ∧
    get_sprint ([] : Store) (get_sprint_key "2026-01-07" "2026-01-20") = none ∧
    get_metrics_for_sprint (fun _ _ => JValue.str "fresh") [] "2026-01-07" "2026-01-20" false 1 =
      ⟨JValue.str "fresh",
        save_sprint [] (get_sprint_key "2026-01-07" "2026-01-20") (JValue.str "fresh") 1,
        true⟩ := by
  have h1 := (get_metrics_cache_policy (fun _ _ => JValue.str "fresh")
      (save_sprint [] (get_sprint_key "2026-01-07" "2026-01-20") (JValue.num 5) 0)
      "2026-01-07" "2026-01-20" 1).1 (JValue.num 5) rfl rfl
  have h2 := (get_metrics_cache_policy (fun _ _ => JValue.str "fresh")
      [] "2026-01-07" "2026-01-20" 1).2.1 rfl
  exact ⟨rfl, rfl, h1, rfl, h2⟩

/-! ### Aggregation folding (`process_paginated_data`,
`src/api/services/github_service.py`, lines 529-648)

The function's two accumulator maps (`developer_stats`, `daily_stats`,
both `defaultdict`s) are modelled as total functions from the key strings
to the per-key statistics, every key initially holding the zeroed default.
The commit/PR/review dictionaries are modelled as structures carrying the
fields the code reads; `Option` marks values the code checks for
`None`/missing.  Date strings are compared lexicographically, exactly as
Python compares `str`.  The wall-clock subtraction
`(datetime.fromisoformat(b) - datetime.fromisoformat(a)).total_seconds()/3600`
is abstracted as an explicit function parameter `hours : String → String → ℚ`;
the claims proved below hold for every such function.  The final packaging
of the accumulators into the sorted developer list, daily list and summary
(lines 650-690) is not needed by the claims about the accumulators and is
not modelled. -/

/-- Model of Python's `str.endswith(suffix)`: a suffix check on the
character sequence. -/
def pyEndsWith (s suffix : String) : Bool := suffix.data.isSuffixOf s.data

/-- Per-developer accumulator (one `developer_stats[login]` entry). -/
structure DevStats where
  commits : ℕ
  prs_opened : ℕ
  prs_merged : ℕ
  reviews_given : ℕ
  lines_added : ℤ
  lines_deleted : ℤ
  review_times : List ℚ
  cycle_times : List ℚ

/-- The `defaultdict` default: all counters zero, no samples. -/
def DevStats.init : DevStats := ⟨0, 0, 0, 0, 0, 0, [], []⟩

/-- Per-day accumulator (one `daily_stats[date]` entry). -/
structure DailyStats where
  commits : ℕ
  prs_opened : ℕ
  prs_merged : ℕ
  reviews_given : ℕ

/-- The `defaultdict` default for a day bucket. -/
def DailyStats.init : DailyStats := ⟨0, 0, 0, 0⟩

/-- Combined aggregation state: both accumulator maps. -/
structure AggState where
  dev : String → DevStats
  daily : String → DailyStats

/-- Both maps fresh (every key at its default). -/
def AggState.init : AggState := ⟨fun _ => DevStats.init, fun _ => DailyStats.init⟩

/-- Point update of one developer's statistics. -/
def updateDev (st : AggState) (login : String) (f : DevStats → DevStats) : AggState :=
  ⟨fun l => if l = login then f (st.dev l) else st.dev l, st.daily⟩

/-- Point update of one day bucket. -/
def updateDaily (st : AggState) (day : String) (f : DailyStats → DailyStats) : AggState :=
  ⟨st.dev, fun d => if d = day then f (st.daily d) else st.daily d⟩

/-- The fields of one commit dictionary read by the loop:
`commit["author"]["user"]["login"]` (absent/null user modelled as `none`),
`commit["author"]["name"]` (default `""`), `commit["author"]["date"]`
(default `""`), and the line counts. -/
structure Commit where
  user_login : Option String
  author_name : String
  date : String
  additions : ℤ
  deletions : ℤ

/-- The resolved login of a commit:
`user.get("login") or author_data.get("name", "")` — the author name is the
fallback when the user login is missing or empty (falsy). -/
def Commit.login (c : Commit) : String :=
  match c.user_login with
  | some l => if l = "" then c.author_name else l
  | none => c.author_name

/-- The fields of one review dictionary read by the loop:
`(review.get("author") or {}).get("login", "")` is pre-resolved into
`author_login` (the code treats a null author and an empty login
identically), and `review.get("submittedAt")`. -/
structure Review where
  author_login : String
  submittedAt : Option String

/-- The fields of one pull-request dictionary read by the loop:
`pr.get("createdAt", "")`, `pr.get("mergedAt")`,
`(pr.get("author") or {}).get("login", "")` pre-resolved into
`author_login`, the line counts, and the embedded
`pr["reviews"]["nodes"]` list. -/
structure PullRequest where
  createdAt : String
  mergedAt : Option String
  author_login : String
  additions : ℤ
  deletions : ℤ
  reviews : List Review

/-- One iteration of the commit loop (lines 568-586). -/
def processCommit (since_date until_date : String) (st : AggState) (commit : Commit) :
    AggState :=
  let login := commit.login
  if login == "" || pyEndsWith login "[bot]" then st
  else
    let commit_date := commit.date.take 10
    if commit_date < since_date then st
    else if until_date < commit_date then st
    else
      let st1 := updateDev st login (fun s =>
        { s with commits := s.commits + 1,
                 lines_added := s.lines_added + commit.additions,
                 lines_deleted := s.lines_deleted + commit.deletions })
      updateDaily st1 commit_date (fun s => { s with commits := s.commits + 1 })

/-- One iteration of the review loop nested in the PR loop
(lines 626-648); `created_at` is the enclosing PR's creation timestamp. -/
def processReview (until_date : String) (hours : String → String → ℚ)
    (created_at : String) (st : AggState) (review : Review) : AggState :=
  let reviewer_login := review.author_login
  if reviewer_login == "" || pyEndsWith reviewer_login "[bot]" then st
  else
    match review.submittedAt with
    | none => st
    | some submitted_at =>
      if submitted_at == "" then st
      else
        let review_date := submitted_at.take 10
        if until_date < review_date then st
        else
          let st1 := updateDev st reviewer_login (fun s =>
            { s with reviews_given := s.reviews_given + 1 })
          let st2 := updateDaily st1 review_date (fun s =>
            { s with reviews_given := s.reviews_given + 1 })
          let review_hours := hours created_at submitted_at
          if 0 < review_hours then
            updateDev st2 reviewer_login (fun s =>
              { s with review_times := s.review_times ++ [review_hours] })
          else st2

/-- One iteration of the PR loop (lines 589-648). -/
def processPR (since_date until_date : String) (hours : String → String → ℚ)
    (st : AggState) (pr : PullRequest) : AggState :=
  let created_at := pr.createdAt
  let created_date := if created_at == "" then "" else created_at.take 10
  if created_date < since_date then st
  else if until_date < created_date then st
  else
    let login := pr.author_login
    if login == "" || pyEndsWith login "[bot]" then st
    else
      let st1 := updateDev st login (fun s =>
        { s with prs_opened := s.prs_opened + 1,
                 lines_added := s.lines_added + pr.additions,
                 lines_deleted := s.lines_deleted + pr.deletions })
      let st2 := updateDaily st1 created_date (fun s =>
        { s with prs_opened := s.prs_opened + 1 })
      let st3 :=
        match pr.mergedAt with
        | none => st2
        | some merged_at =>
          if merged_at == "" then st2
          else
            let merged_date := merged_at.take 10
            if merged_date ≤ until_date then
              let st4 := updateDev st2 login (fun s =>
                { s with prs_merged := s.prs_merged + 1 })
              let st5 := updateDaily st4 merged_date (fun s =>
                { s with prs_merged := s.prs_merged + 1 })
              updateDev st5 login (fun s =>
                { s with cycle_times := s.cycle_times ++ [hours created_at merged_at] })
            else st2
      pr.reviews.foldl (processReview until_date hours created_at) st3

/-- The accumulation phase of `process_paginated_data`: fold all commits,
then all PRs (each with its embedded reviews), starting from fresh
accumulators. -/
def process_paginated_data (hours : String → String → ℚ) (prs : List PullRequest)
    (commits : List Commit) (since_date until_date : String) : AggState :=
  let st := commits.foldl (processCommit since_date until_date) AggState.init
  prs.foldl (processPR since_date until_date hours) st

/-! ### Per-item effects of the aggregation fold (claims C5, C6) -/

/-- Processing one review never touches any developer's `prs_opened`,
`prs_merged` or `cycle_times`, nor any day bucket's `prs_merged`. -/
lemma processReview_preserves (until_date : String) (hours : String → String → ℚ)
    (created_at : String) (st : AggState) (r : Review) :
    (∀ l, ((processReview until_date hours created_at st r).dev l).prs_opened
        = (st.dev l).prs_opened) ∧
    (∀ l, ((processReview until_date hours created_at st r).dev l).prs_merged
        = (st.dev l).prs_merged) ∧
    (∀ l, ((processReview until_date hours created_at st r).dev l).cycle_times
        = (st.dev l).cycle_times) ∧
    (∀ d, ((processReview until_date hours created_at st r).daily d).prs_merged
        = (st.daily d).prs_merged) := by
  rw [processReview]
  by_cases h1 : (r.author_login == "" || pyEndsWith r.author_login "[bot]") = true
  · rw [if_pos h1]
    exact ⟨fun _ => rfl, fun _ => rfl, fun _ => rfl, fun _ => rfl⟩
  · rw [if_neg h1]
    cases hsub : r.submittedAt with
    | none => exact ⟨fun _ => rfl, fun _ => rfl, fun _ => rfl, fun _ => rfl⟩
    | some sub =>
      dsimp only
      by_cases h2 : (sub == "") = true
      · rw [if_pos h2]
        exact ⟨fun _ => rfl, fun _ => rfl, fun _ => rfl, fun _ => rfl⟩
      · rw [if_neg h2]
        by_cases h3 : until_date < sub.take 10
        · rw [if_pos h3]
          exact ⟨fun _ => rfl, fun _ => rfl, fun _ => rfl, fun _ => rfl⟩
        · rw [if_neg h3]
          by_cases h4 : 0 < hours created_at sub
          · rw [if_pos h4]
            refine ⟨fun l => ?_, fun l => ?_, fun l => ?_, fun d => ?_⟩ <;>
              (simp only [updateDev, updateDaily]; split_ifs <;> rfl)
          · rw [if_neg h4]
            refine ⟨fun l => ?_, fun l => ?_, fun l => ?_, fun d => ?_⟩ <;>
              (simp only [updateDev, updateDaily]; split_ifs <;> rfl)

/-- Folding a whole review list preserves the same fields. -/
lemma reviews_fold_preserves (until_date : String) (hours : String → String → ℚ)
    (created_at : String) (reviews : List Review) (st : AggState) :
    (∀ l, ((reviews.foldl (processReview until_date hours created_at) st).dev l).prs_opened
        = (st.dev l).prs_opened) ∧
    (∀ l, ((reviews.foldl (processReview until_date hours created_at) st).dev l).prs_merged
        = (st.dev l).prs_merged) ∧
    (∀ l, ((reviews.foldl (processReview until_date hours created_at) st).dev l).cycle_times
        = (st.dev l).cycle_times) ∧
    (∀ d, ((reviews.foldl (processReview until_date hours created_at) st).daily d).prs_merged
        = (st.daily d).prs_merged) := by
  induction reviews generalizing st with
  | nil => exact ⟨fun _ => rfl, fun _ => rfl, fun _ => rfl, fun _ => rfl⟩
  | cons r rs ih =>
    have h1 := processReview_preserves until_date hours created_at st r
    have h2 := ih (processReview until_date hours created_at st r)
    exact ⟨fun l => (h2.1 l).trans (h1.1 l),
      fun l => (h2.2.1 l).trans (h1.2.1 l),
      fun l => (h2.2.2.1 l).trans (h1.2.2.1 l),
      fun d => (h2.2.2.2 d).trans (h1.2.2.2 d)⟩

/-- C5: a pull request whose creation date lies inside the window but whose
merge date is strictly after the window's end (and whose author is a
counted, non-bot login) increments the author's `prs_opened` by exactly
one, leaves every developer's `prs_merged` and `cycle_times` unchanged
(no cycle-time sample is appended for the PR), and leaves every day
bucket's `prs_merged` unchanged.  `process_paginated_data` folds
`processPR` over the PR list, so this is the per-PR effect inside it. -/
theorem pr_merged_after_window_not_counted
    (since_date until_date : String) (hours : String → String → ℚ)
    (st : AggState) (pr : PullRequest) (m : String)
    (hcreated_ne : pr.createdAt ≠ "")
    (hA : since_date ≤ pr.createdAt.take 10)
    (hB : pr.createdAt.take 10 ≤ until_date)
    (hm : pr.mergedAt = some m)
    (hm_ne : m ≠ "")
    (hlate : until_date < m.take 10)
    (hlogin_ne : pr.author_login ≠ "")
    (hnobot : pyEndsWith pr.author_login "[bot]" = false) :
    ((processPR since_date until_date hours st pr).dev pr.author_login).prs_opened
        = (st.dev pr.author_login).prs_opened + 1 ∧
    (∀ l, ((processPR since_date until_date hours st pr).dev l).prs_merged
        = (st.dev l).prs_merged) ∧
    (∀ l, ((processPR since_date until_date hours st pr).dev l).cycle_times
        = (st.dev l).cycle_times) ∧
    (∀ d, ((processPR since_date until_date hours st pr).daily d).prs_merged
        = (st.daily d).prs_merged) := by
  rw [processPR]
  dsimp only
  have hcd : (if (pr.createdAt == "") = true then "" else pr.createdAt.take 10)
      = pr.createdAt.take 10 := if_neg (by simp [hcreated_ne])
  rw [hcd]
  rw [if_neg (not_lt.mpr hA), if_neg (not_lt.mpr hB)]
  rw [if_neg (show ¬((pr.author_login == "" || pyEndsWith pr.author_login "[bot]") = true) by
    simp [hlogin_ne, hnobot])]
  rw [hm]
  dsimp only
  rw [if_neg (by simp [hm_ne])]
  rw [if_neg (not_le.mpr hlate)]
  refine ⟨?_, fun l => ?_, fun l => ?_, fun d => ?_⟩
  · rw [(reviews_fold_preserves _ _ _ _ _).1 pr.author_login]
    simp [updateDev, updateDaily]
  · rw [(reviews_fold_preserves _ _ _ _ _).2.1 l]
    simp only [updateDev, updateDaily]
    split_ifs <;> rfl
  · rw [(reviews_fold_preserves _ _ _ _ _).2.2.1 l]
    simp only [updateDev, updateDaily]
    split_ifs <;> rfl
  · rw [(reviews_fold_preserves _ _ _ _ _).2.2.2 d]
    simp only [updateDev, updateDaily]
    split_ifs <;> rfl

/-- Witness for `pr_merged_after_window_not_counted`: a PR created
2026-01-10 inside the window 2026-01-07..2026-01-20 and merged 2026-01-25,
after the window's end. -/
theorem pr_merged_after_window_witness :
    ("2026-01-10T12:00:00Z" : String) ≠ "" ∧
    ("2026-01-07" : String) ≤ "2026-01-10T12:00:00Z".take 10 ∧
    ("2026-01-10T12:00:00Z".take 10 : String) ≤ "2026-01-20" ∧
    ("2026-01-20" : String) < "2026-01-25T09:00:00Z".take 10 ∧
    ("alice" : String) ≠ "" ∧
    pyEndsWith "alice" "[bot]" = false ∧
    ((processPR "2026-01-07" "2026-01-20" (fun _ _ => 1) AggState.init
        ⟨"2026-01-10T12:00:00Z", some "2026-01-25T09:00:00Z", "alice", 10, 2,
          [⟨"bob", some "2026-01-11T08:00:00Z"⟩]⟩).dev "alice").prs_opened
      = ((AggState.init.dev "alice").prs_opened) + 1 ∧
    ((processPR "2026-01-07" "2026-01-20" (fun _ _ => 1) AggState.init
        ⟨"2026-01-10T12:00:00Z", some "2026-01-25T09:00:00Z", "alice", 10, 2,
          [⟨"bob", some "2026-01-11T08:00:00Z"⟩]⟩).dev "alice").prs_merged
      = (AggState.init.dev "alice").prs_merged ∧
    ((processPR "2026-01-07" "2026-01-20" (fun _ _ => 1) AggState.init
        ⟨"2026-01-10T12:00:00Z", some "2026-01-25T09:00:00Z", "alice", 10, 2,
          [⟨"bob", some "2026-01-11T08:00:00Z"⟩]⟩).dev "alice").cycle_times
      = (AggState.init.dev "alice").cycle_times ∧
    ((processPR "2026-01-07" "2026-01-20" (fun _ _ => 1) AggState.init
        ⟨"2026-01-10T12:00:00Z", some "2026-01-25T09:00:00Z", "alice", 10, 2,
          [⟨"bob", some "2026-01-11T08:00:00Z"⟩]⟩).daily "2026-01-25").prs_merged
      = (AggState.init.daily "2026-01-25").prs_merged := by
  have htake1 : ("2026-01-10T12:00:00Z" : String).take 10 = "2026-01-10" := by decide
  have htake2 : ("2026-01-25T09:00:00Z" : String).take 10 = "2026-01-25" := by decide
  have h1 : ("2026-01-10T12:00:00Z" : String) ≠ "" := by decide
  have h2 : ("2026-01-07" : String) ≤ "2026-01-10T12:00:00Z".take 10 := by
    rw [htake1]
    simp
    decide
  have h3 : ("2026-01-10T12:00:00Z".take 10 : String) ≤ "2026-01-20" := by
    rw [htake1]
    simp
    decide
  have h4 : ("2026-01-20" : String) < "2026-01-25T09:00:00Z".take 10 := by
    rw [htake2]
    simp
    decide
  have h5 : ("alice" : String) ≠ "" := by decide
  have h6 : pyEndsWith "alice" "[bot]" = false := by decide
  have hmain := pr_merged_after_window_not_counted "2026-01-07" "2026-01-20" (fun _ _ => 1)
    AggState.init
    ⟨"2026-01-10T12:00:00Z", some "2026-01-25T09:00:00Z", "alice", 10, 2,
      [⟨"bob", some "2026-01-11T08:00:00Z"⟩]⟩
    "2026-01-25T09:00:00Z" h1 h2 h3 rfl (by decide) h4 h5 h6
  exact ⟨h1, h2, h3, h4, h5, h6, hmain.1, hmain.2.1 "alice", hmain.2.2.1 "alice",
    hmain.2.2.2 "2026-01-25"⟩

/-- C6: a commit, pull request or review whose resolved author/reviewer
login is empty or ends with the literal suffix `[bot]` leaves the
aggregation state completely unchanged: no developer counters, no line
totals, no latency samples, no daily buckets.  (For a bot-authored PR the
skip even drops its embedded reviews, as the Python `continue` does.) -/
theorem bot_and_empty_logins_excluded :
    (∀ since_date until_date st (c : Commit),
        (c.login = "" ∨ pyEndsWith c.login "[bot]" = true) →
        processCommit since_date until_date st c = st) ∧
    (∀ since_date until_date (hours : String → String → ℚ) st (pr : PullRequest),
        (pr.author_login = "" ∨ pyEndsWith pr.author_login "[bot]" = true) →
        processPR since_date until_date hours st pr = st) ∧
    (∀ until_date (hours : String → String → ℚ) created_at st (r : Review),
        (r.author_login = "" ∨ pyEndsWith r.author_login "[bot]" = true) →
        processReview until_date hours created_at st r = st) := by
  refine ⟨?_, ?_, ?_⟩
  · intro since_date until_date st c h
    have hb : (c.login == "" || pyEndsWith c.login "[bot]") = true := by
      rcases h with h | h <;> simp [h]
    rw [processCommit, if_pos hb]
  · intro since_date until_date hours st pr h
    have hb : (pr.author_login == "" || pyEndsWith pr.author_login "[bot]") = true := by
      rcases h with h | h <;> simp [h]
    rw [processPR]
    dsimp only
    split_ifs <;> rfl
  · intro until_date hours created_at st r h
    have hb : (r.author_login == "" || pyEndsWith r.author_login "[bot]") = true := by
      rcases h with h | h <;> simp [h]
    rw [processReview, if_pos hb]

/-- Witness for `bot_and_empty_logins_excluded`: a `dependabot[bot]`
commit, a `renovate[bot]` PR carrying a human review, and an
empty-login review all leave the fresh state untouched. -/
theorem bot_and_empty_logins_excluded_witness :
    (Commit.login ⟨some "dependabot[bot]", "Dependabot", "2026-01-10T00:00:00Z", 5, 3⟩ = ""
      ∨ pyEndsWith
          (Commit.login ⟨some "dependabot[bot]", "Dependabot", "2026-01-10T00:00:00Z", 5, 3⟩)
          "[bot]" = true) ∧
    processCommit "2026-01-07" "2026-01-20" AggState.init
        ⟨some "dependabot[bot]", "Dependabot", "2026-01-10T00:00:00Z", 5, 3⟩ = AggState.init ∧
    (("renovate[bot]" : String) = "" ∨ pyEndsWith "renovate[bot]" "[bot]" = true) ∧
    processPR "2026-01-07" "2026-01-20" (fun _ _ => 1) AggState.init
        ⟨"2026-01-10T12:00:00Z", some "2026-01-12T00:00:00Z", "renovate[bot]", 7, 1,
          [⟨"alice", some "2026-01-13T00:00:00Z"⟩]⟩ = AggState.init ∧
    (("" : String) = "" ∨ pyEndsWith "" "[bot]" = true) ∧
    processReview "2026-01-20" (fun _ _ => 1) "2026-01-10T12:00:00Z" AggState.init
        ⟨"", some "2026-01-14T00:00:00Z"⟩ = AggState.init := by
  have hc : Commit.login ⟨some "dependabot[bot]", "Dependabot", "2026-01-10T00:00:00Z", 5, 3⟩
      = "dependabot[bot]" := by decide
  have hb1 : (Commit.login ⟨some "dependabot[bot]", "Dependabot", "2026-01-10T00:00:00Z", 5, 3⟩ = ""
      ∨ pyEndsWith
          (Commit.login ⟨some "dependabot[bot]", "Dependabot", "2026-01-10T00:00:00Z", 5, 3⟩)
          "[bot]" = true) := by
    right
    rw [hc]
    decide
  have hb2 : (("renovate[bot]" : String) = "" ∨ pyEndsWith "renovate[bot]" "[bot]" = true) :=
    Or.inr (by decide)
  have hb3 : (("" : String) = "" ∨ pyEndsWith "" "[bot]" = true) := Or.inl rfl
  exact ⟨hb1, (bot_and_empty_logins_excluded.1 _ _ _ _ hb1),
    hb2, (bot_and_empty_logins_excluded.2.1 _ _ _ _ _ hb2),
    hb3, (bot_and_empty_logins_excluded.2.2 _ _ _ _ _ hb3)⟩

/-! ### The pagination driver (`fetch_all_pages`,
`src/api/services/github_service.py`, lines 201-248)

`fetch_graphql` (a subprocess call to the `gh` CLI followed by JSON
parsing) is abstracted as an executor `exec : ℕ → Option JValue` giving
the response to the i-th invocation; `none` models every recovered
transport failure (`run_gh_command` returning `None` on timeout, launch
failure or non-zero exit, and `json.JSONDecodeError` on an unparseable
body).  The cursor is threaded by the loop but only selects the next
page, which the invocation index already does in the model.  The
`while pages_fetched < settings.max_pages_per_query` loop is embedded as
fuel recursion on the remaining page budget, together with the count of
executor invocations made so far. -/

/-- Python `key in response` for a JSON object (responses are objects). -/
def JValue.hasKey : JValue → String → Bool
  | .obj fs, k => (fs.lookup k).isSome
  | _, _ => false

/-- Python `d.get(key)` on a JSON value: `some .null` when the key is
missing or maps to null (both give Python `None`); `none` models the
`AttributeError` raised when the receiver is not a dict. -/
def pyGet : JValue → String → Option JValue
  | .obj fs, k => some ((fs.lookup k).getD .null)
  | _, _ => none

/-- Python `d.get(key, default)`, with the same `AttributeError` case. -/
def pyGetD : JValue → String → JValue → Option JValue
  | .obj fs, k, d => some ((fs.lookup k).getD d)
  | _, _, _ => none

/-- The connection walk (lines 229-233): starting from `result["data"]`,
follow `path`; a `None` value breaks the `for` loop early, a missing key
continues with `{}`; `none` models the `AttributeError` Python would
raise on a non-dict, non-`None` intermediate value. -/
def navigatePath : JValue → List String → Option JValue
  | conn, [] => some conn
  | .null, _ :: _ => some .null
  | .obj fs, k :: rest => navigatePath ((fs.lookup k).getD (.obj [])) rest
  | _, _ :: _ => none

/-- What one loop iteration does after its executor invocation. -/
inductive PageAction where
  | stop                        -- break out of the while loop, keep accumulator
  | last (nodes : List JValue)  -- append this page's nodes, then break
  | next (nodes : List JValue)  -- append this page's nodes, fetch another page
  | error                      -- an exception escapes the loop

/-- The body of one loop iteration (lines 222-246) applied to the
response of one executor invocation:
`if not result or "data" not in result: break`; walk the connection
path; `if not connection: break`; extract `nodes` (default `[]`; a
non-array value is modelled as an error — in the source `extend` expects
the GraphQL node array); extract `pageInfo` (default `{}`) and break
after appending when `hasNextPage` is falsy. -/
def classifyPage (path : List String) (response : Option JValue) : PageAction :=
  match response with
  | none => .stop
  | some result =>
    if !result.isTruthy || !result.hasKey "data" then .stop
    else
      match pyGet result "data" with
      | none => .error
      | some data =>
        match navigatePath data path with
        | none => .error
        | some connection =>
          if !connection.isTruthy then .stop
          else
            match pyGetD connection "nodes" (JValue.arr []) with
            | some (.arr nodes) =>
              match pyGetD connection "pageInfo" (JValue.obj []) with
              | none => .error
              | some page_info =>
                match pyGet page_info "hasNextPage" with
                | none => .error
                | some hnp =>
                  if !hnp.isTruthy then .last nodes
                  else .next nodes
            | _ => .error

/-- Result of the pagination loop: the accumulated nodes (or an escaped
exception) together with how many executor invocations were made. -/
inductive PagesOutcome where
  | ok (nodes : List JValue) (calls : ℕ)
  | exn (calls : ℕ)

/-- Number of executor invocations of an outcome. -/
def PagesOutcome.calls : PagesOutcome → ℕ
  | .ok _ c => c
  | .exn c => c

/-- The `while pages_fetched < settings.max_pages_per_query` loop:
`fuel` is the remaining page budget, `calls` the invocations made so
far, `acc` the `all_nodes` accumulator. -/
def fetchPagesLoop (exec : ℕ → Option JValue) (path : List String) :
    ℕ → ℕ → List JValue → PagesOutcome
  | 0, calls, acc => .ok acc calls
  | fuel + 1, calls, acc =>
    match classifyPage path (exec calls) with
    | .stop => .ok acc (calls + 1)
    | .last nodes => .ok (acc ++ nodes) (calls + 1)
    | .next nodes => fetchPagesLoop exec path fuel (calls + 1) (acc ++ nodes)
    | .error => .exn (calls + 1)

/-- `Settings.max_pages_per_query` default
(`src/deprecated_api/core/config.py`, line 23). -/
def max_pages_per_query : ℕ := 10

/-- Embedding of `fetch_all_pages` over an abstract executor. -/
def fetch_all_pages (exec : ℕ → Option JValue) (path : List String) : PagesOutcome :=
  fetchPagesLoop exec path max_pages_per_query 0 []

/-- A response on which the loop's first guard breaks: a failed or
unparseable invocation (`None`), a falsy response, or a response without
a `"data"` key. -/
def isFailureResponse (r : Option JValue) : Bool :=
  match r with
  | none => true
  | some v => !v.isTruthy || !v.hasKey "data"

/-- Concatenation of the node lists of pages `start, start+1, ...,
start+k-1`. -/
def pagesConcat (pages : ℕ → List JValue) : ℕ → ℕ → List JValue
  | _, 0 => []
  | start, k + 1 => pages start ++ pagesConcat pages (start + 1) k

lemma fetchPagesLoop_calls_le (exec : ℕ → Option JValue) (path : List String) :
    ∀ fuel calls acc, (fetchPagesLoop exec path fuel calls acc).calls ≤ calls + fuel := by
  intro fuel
  induction fuel with
  | zero =>
    intro calls acc
    simp [fetchPagesLoop, PagesOutcome.calls]
  | succ fuel ih =>
    intro calls acc
    rw [fetchPagesLoop]
    rcases h : classifyPage path (exec calls) with _ | ns | ns | _ <;>
      dsimp only [PagesOutcome.calls]
    · omega
    · omega
    · have := ih (calls + 1) (acc ++ ns)
      dsimp only [PagesOutcome.calls] at this
      omega
    · omega

lemma classifyPage_of_failure {path : List String} {r : Option JValue}
    (h : isFailureResponse r = true) : classifyPage path r = .stop := by
  cases r with
  | none => rfl
  | some v =>
    rw [classifyPage, if_pos (by simpa [isFailureResponse] using h)]

/-- The loop walks through `k` continuing pages and then hits a failure. -/
lemma fetchPagesLoop_prefix (exec : ℕ → Option JValue) (path : List String)
    (pages : ℕ → List JValue) :
    ∀ k fuel calls acc, k < fuel →
    (∀ i, i < k → classifyPage path (exec (calls + i)) = .next (pages (calls + i))) →
    isFailureResponse (exec (calls + k)) = true →
    fetchPagesLoop exec path fuel calls acc =
      .ok (acc ++ pagesConcat pages calls k) (calls + k + 1) := by
  intro k
  induction k with
  | zero =>
    intro fuel calls acc hk hgood hfail
    obtain ⟨fuel, rfl⟩ : ∃ f, fuel = f + 1 := ⟨fuel - 1, by omega⟩
    rw [fetchPagesLoop]
    rw [show exec calls = exec (calls + 0) by rw [Nat.add_zero]] at *
    rw [classifyPage_of_failure hfail]
    simp [pagesConcat]
  | succ k ih =>
    intro fuel calls acc hk hgood hfail
    obtain ⟨fuel, rfl⟩ : ∃ f, fuel = f + 1 := ⟨fuel - 1, by omega⟩
    rw [fetchPagesLoop]
    have h0 := hgood 0 (Nat.succ_pos k)
    rw [Nat.add_zero] at h0
    rw [h0]
    dsimp only
    have hrec := ih fuel (calls + 1) (acc ++ pages calls) (by omega)
      (fun i hi => by
        have := hgood (i + 1) (by omega)
        rwa [show calls + (i + 1) = calls + 1 + i by omega] at this)
      (by rwa [show calls + 1 + k = calls + (k + 1) by omega])
    rw [hrec]
    rw [pagesConcat]
    simp only [List.append_assoc]
    congr 2
    omega

/-- C7: `fetch_all_pages` always terminates after at most
`max_pages_per_query = 10` executor invocations, whatever the executor
returns; and the loop stops early — returning the accumulator without
error after one further invocation — when the invocation fails or its
response lacks a `"data"` key, when the connection walk ends in a falsy
connection (in particular a missing intermediate key yields the empty
object), and, appending the final page's nodes, when a page reports a
falsy `hasNextPage`. -/
theorem fetch_all_pages_call_bound (exec : ℕ → Option JValue) (path : List String) :
    max_pages_per_query = 10 ∧
    (fetch_all_pages exec path).calls ≤ max_pages_per_query ∧
    (∀ fuel calls acc, exec calls = none →
      fetchPagesLoop exec path (fuel + 1) calls acc = .ok acc (calls + 1)) ∧
    (∀ fuel calls acc r, exec calls = some r → r.hasKey "data" = false →
      fetchPagesLoop exec path (fuel + 1) calls acc = .ok acc (calls + 1)) ∧
    (∀ fuel calls acc r data conn, exec calls = some r → r.isTruthy = true →
      pyGet r "data" = some data → navigatePath data path = some conn →
      conn.isTruthy = false →
      fetchPagesLoop exec path (fuel + 1) calls acc = .ok acc (calls + 1)) ∧
    (∀ fs k rest, fs.lookup k = none →
      navigatePath (JValue.obj fs) (k :: rest) = navigatePath (JValue.obj []) rest) ∧
    (∀ fuel calls acc ns, classifyPage path (exec calls) = .last ns →
      fetchPagesLoop exec path (fuel + 1) calls acc = .ok (acc ++ ns) (calls + 1)) := by
  refine ⟨rfl, ?_, ?_, ?_, ?_, ?_, ?_⟩
  · have := fetchPagesLoop_calls_le exec path max_pages_per_query 0 []
    simpa [fetch_all_pages] using this
  · intro fuel calls acc hexec
    rw [fetchPagesLoop, classifyPage_of_failure (by simp [isFailureResponse, hexec])]
  · intro fuel calls acc r hexec hkey
    rw [fetchPagesLoop,
      classifyPage_of_failure (by simp [isFailureResponse, hexec, hkey])]
  · intro fuel calls acc r data conn hexec htruthy hdata hnav hfalsy
    rw [fetchPagesLoop]
    by_cases hk : r.hasKey "data" = true
    · rw [show classifyPage path (exec calls) = .stop by
        rw [hexec, classifyPage]
        rw [if_neg (by simp [htruthy, hk])]
        rw [hdata]
        dsimp only
        rw [hnav]
        dsimp only
        rw [if_pos (by simp [hfalsy])]]
    · rw [classifyPage_of_failure
        (by simp [isFailureResponse, hexec, Bool.eq_false_iff.mpr hk])]
  · intro fs k rest hlookup
    rw [navigatePath, hlookup]
    rfl
  · intro fuel calls acc ns hlast
    rw [fetchPagesLoop, hlast]

/-- C8: if the executor's first `k` invocations return well-formed pages
that report `hasNextPage` (with node lists `pages 0, ..., pages (k-1)`),
and invocation `k` fails — a transport failure or timeout or unparseable
body (`none`), or a response without `"data"` — then `fetch_all_pages`
raises nothing and returns exactly the nodes accumulated from the
successful pages preceding the failure. -/
theorem executor_failure_returns_partial (exec : ℕ → Option JValue)
    (path : List String) (pages : ℕ → List JValue) (k : ℕ)
    (hk : k < max_pages_per_query)
    (hgood : ∀ i, i < k → classifyPage path (exec i) = .next (pages i))
    (hfail : isFailureResponse (exec k) = true) :
    fetch_all_pages exec path = .ok (pagesConcat pages 0 k) (k + 1) := by
  have h := fetchPagesLoop_prefix exec path pages k max_pages_per_query 0 [] hk
    (fun i hi => by simpa using hgood i hi) (by simpa using hfail)
  simpa [fetch_all_pages] using h

/-- Witness for `fetch_all_pages_call_bound`: concrete executors hitting
the call bound and each early-stop condition. -/
theorem fetch_all_pages_call_bound_witness :
    (fetch_all_pages (fun _ => (none : Option JValue)) ["repository"]).calls
        ≤ max_pages_per_query ∧
    ((fun _ => (none : Option JValue)) 0 = none ∧
      fetchPagesLoop (fun _ => (none : Option JValue)) ["repository"] (9 + 1) 0 []
        = .ok [] (0 + 1)) ∧
    ((fun _ => some (JValue.obj [("errors", JValue.arr [])])) 0
        = some (JValue.obj [("errors", JValue.arr [])]) ∧
      (JValue.obj [("errors", JValue.arr [])]).hasKey "data" = false ∧
      fetchPagesLoop (fun _ => some (JValue.obj [("errors", JValue.arr [])]))
        ["repository"] (9 + 1) 0 [] = .ok [] (0 + 1)) ∧
    (([("x", JValue.null)] : List (String × JValue)).lookup "repository" = none ∧
      navigatePath (JValue.obj [("x", JValue.null)]) ["repository", "pullRequests"]
        = navigatePath (JValue.obj []) ["pullRequests"]) ∧
    (classifyPage ["repository", "pullRequests"]
        ((fun _ => some (JValue.obj [("data", JValue.obj [("repository", JValue.obj
          [("pullRequests", JValue.obj
            [("nodes", JValue.arr [JValue.str "n1"]),
             ("pageInfo", JValue.obj [("hasNextPage", JValue.bool false)])])])])])) 0)
        = PageAction.last [JValue.str "n1"] ∧
      fetchPagesLoop
        (fun _ => some (JValue.obj [("data", JValue.obj [("repository", JValue.obj
          [("pullRequests", JValue.obj
            [("nodes", JValue.arr [JValue.str "n1"]),
             ("pageInfo", JValue.obj [("hasNextPage", JValue.bool false)])])])])]))
        ["repository", "pullRequests"] (9 + 1) 0 []
        = .ok ([] ++ [JValue.str "n1"]) (0 + 1)) := by
  have hb := fetch_all_pages_call_bound (fun _ => (none : Option JValue)) ["repository"]
  have h1 := hb.2.2.1 9 0 [] rfl
  have h2 := (fetch_all_pages_call_bound
      (fun _ => some (JValue.obj [("errors", JValue.arr [])])) ["repository"]).2.2.2.1
    9 0 [] (JValue.obj [("errors", JValue.arr [])]) rfl rfl
  have h3 := (fetch_all_pages_call_bound (fun _ => (none : Option JValue))
      ["pullRequests"]).2.2.2.2.2.1 [("x", JValue.null)] "repository" ["pullRequests"] rfl
  have h4 := (fetch_all_pages_call_bound
      (fun _ => some (JValue.obj [("data", JValue.obj [("repository", JValue.obj
        [("pullRequests", JValue.obj
          [("nodes", JValue.arr [JValue.str "n1"]),
           ("pageInfo", JValue.obj [("hasNextPage", JValue.bool false)])])])])]))
      ["repository", "pullRequests"]).2.2.2.2.2.2 9 0 [] [JValue.str "n1"] rfl
  exact ⟨hb.2.1, ⟨rfl, h1⟩, ⟨rfl, rfl, h2⟩, ⟨rfl, h3⟩, ⟨rfl, h4⟩⟩

/-- Witness for `executor_failure_returns_partial`: one well-formed page
with `hasNextPage = true`, then a transport failure; the call returns the
first page's nodes without error. -/
theorem executor_failure_returns_partial_witness :
    1 < max_pages_per_query ∧
    (∀ i, i < 1 → classifyPage ["repository", "pullRequests"]
        ((fun j => if j = 0
          then some (JValue.obj [("data", JValue.obj [("repository", JValue.obj
            [("pullRequests", JValue.obj
              [("nodes", JValue.arr [JValue.str "pr1"]),
               ("pageInfo", JValue.obj
                 [("hasNextPage", JValue.bool true),
                  ("endCursor", JValue.str "c1")])])])])])
          else none) i)
        = PageAction.next [JValue.str "pr1"]) ∧
    isFailureResponse ((fun j => if j = 0
        then some (JValue.obj [("data", JValue.obj [("repository", JValue.obj
          [("pullRequests", JValue.obj
            [("nodes", JValue.arr [JValue.str "pr1"]),
             ("pageInfo", JValue.obj
               [("hasNextPage", JValue.bool true),
                ("endCursor", JValue.str "c1")])])])])])
        else none) 1) = true ∧
    fetch_all_pages (fun j => if j = 0
        then some (JValue.obj [("data", JValue.obj [("repository", JValue.obj
          [("pullRequests", JValue.obj
            [("nodes", JValue.arr [JValue.str "pr1"]),
             ("pageInfo", JValue.obj
               [("hasNextPage", JValue.bool true),
                ("endCursor", JValue.str "c1")])])])])])
        else none) ["repository", "pullRequests"]
      = .ok [JValue.str "pr1"] 2 := by
  have hgood : ∀ i, i < 1 → classifyPage ["repository", "pullRequests"]
      ((fun j => if j = 0
        then some (JValue.obj [("data", JValue.obj [("repository", JValue.obj
          [("pullRequests", JValue.obj
            [("nodes", JValue.arr [JValue.str "pr1"]),
             ("pageInfo", JValue.obj
               [("hasNextPage", JValue.bool true),
                ("endCursor", JValue.str "c1")])])])])])
        else none) i)
      = PageAction.next [JValue.str "pr1"] := by
    intro i hi
    have : i = 0 := by omega
    subst this
    rfl
  have hmain := executor_failure_returns_partial
    (fun j => if j = 0
      then some (JValue.obj [("data", JValue.obj [("repository", JValue.obj
        [("pullRequests", JValue.obj
          [("nodes", JValue.arr [JValue.str "pr1"]),
           ("pageInfo", JValue.obj
             [("hasNextPage", JValue.bool true),
              ("endCursor", JValue.str "c1")])])])])])
      else none) ["repository", "pullRequests"]
    (fun _ => [JValue.str "pr1"]) 1 (by decide) hgood rfl
  exact ⟨by decide, hgood, rfl, hmain.trans rfl⟩

end OpenDXI
